import Mathlib

/-!
# Verification of the collision-tracking / raycast core

Shallow embedding of the per-frame collision-state tracking and raycast
query layer of the engine:

* `src/framework/components/rigid-body/physics-provider.js`
  (`PhysicsProvider`: `_storeCollision`, `_cleanOldCollisions`,
  `_hasContactEvent`, dual persistent/transient collision maps),
* `src/physics/ammo-provider.js`
  (`AmmoProvider`: `_checkForCollisions`, `afterStep`, `init`,
  `raycastFirst`, `raycastAll`).

Entities are value records carrying the fields the code reads: the
stable guid, presence of the `collision` / `rigidbody` components, the
`entity.trigger` property, the body's `BODYFLAG_NORESPONSE_OBJECT`
collision flag, the per-component event-listener sets, and the tag set.
JS object maps keyed by guid are association lists in insertion order
(`alistGet` returns the first match, `alistSet` overwrites the first
match in place or appends a fresh key at the end, like property
assignment). Event firing is modelled by an explicit list of emitted
`Event`s, where an event records the component it was fired on, the
owning entity, the event name, and the other entity of the pair (the
entity argument, respectively the `other`/`b` entity of the contact
payload).

The backend ray queries are opaque: a `Backend` value records, for the
ray being cast, the outcome of the closest-hit query
(`ClosestRayResultCallback`) and the hit list of the all-hits query
(`AllHitsRayResultCallback`), both already constrained by the group/mask
filters passed into the callback. Hit fractions are modelled as
rationals (ordering is all the code uses).
-/

/-! ## The model -/

/-- Event names occurring in the collision subsystem. -/
inductive EvName where
  | contact
  | collisionstart
  | collisionend
  | triggerenter
  | triggerleave
  deriving DecidableEq, Repr

/-- Which object an event is fired on: an entity's `collision` component,
an entity's `rigidbody` component, or the component system itself
(the global pairwise `contact` event). -/
inductive EvTarget where
  | collision
  | rigidbody
  | system
  deriving DecidableEq, Repr

/-- An entity, restricted to the fields the collision/raycast code reads.
`guid` is the stable identity returned by `getGuid()`; `hasCollision` /
`hasRigidbody` model presence (truthiness) of `entity.collision` /
`entity.rigidbody`; `trigger` models truthiness of `entity.trigger`;
`noResponse` models the `BODYFLAG_NORESPONSE_OBJECT` bit of the entity's
body's collision flags; `collisionEvents` / `rigidbodyEvents` are the
event names for which the respective component's `hasEvent` returns true;
`tags` models the entity's tag set used by `tags.has`. -/
structure Entity where
  guid : Nat
  hasCollision : Bool
  hasRigidbody : Bool
  trigger : Bool
  noResponse : Bool
  collisionEvents : List EvName
  rigidbodyEvents : List EvName
  tags : List Nat
  deriving DecidableEq, Repr

/-- One `fire` call: the component kind it happened on, the entity owning
that component (for the global system event: entity `a`), the event name,
and the other entity of the pair (the fired argument, respectively the
`other`/`b` entity of the contact payload). -/
structure Event where
  target : EvTarget
  owner : Entity
  name : EvName
  other : Entity
  deriving DecidableEq, Repr

/-- Models `entity.collision && entity.collision.hasEvent(n)`. -/
def Entity.collisionHasEvent (e : Entity) (n : EvName) : Bool :=
  e.hasCollision && e.collisionEvents.contains n

/-- Models `entity.rigidbody && entity.rigidbody.hasEvent(n)`. -/
def Entity.rigidbodyHasEvent (e : Entity) (n : EvName) : Bool :=
  e.hasRigidbody && e.rigidbodyEvents.contains n

/-- Models `PhysicsProvider._hasContactEvent`: the entity's collision component or
rigid-body component has a listener for collisionstart, collisionend or
contact. -/
def hasContactEvent (e : Entity) : Bool :=
  (e.hasCollision &&
    (e.collisionEvents.contains .collisionstart ||
     e.collisionEvents.contains .collisionend ||
     e.collisionEvents.contains .contact)) ||
  (e.hasRigidbody &&
    (e.rigidbodyEvents.contains .collisionstart ||
     e.rigidbodyEvents.contains .collisionend ||
     e.rigidbodyEvents.contains .contact))

/-- A value of the guid-keyed collision maps:
`{ others: [...], entity: entity }`. -/
structure CollisionRecord where
  entity : Entity
  others : List Entity
  deriving DecidableEq, Repr

/-- The provider's mutable collision bookkeeping: the persistent map
`this.collisions` and the transient per-step map `this.frameCollisions`,
both keyed by entity guid, in insertion order. -/
structure ProviderState where
  collisions : List (Nat × CollisionRecord)
  frameCollisions : List (Nat × CollisionRecord)
  deriving DecidableEq, Repr

/-- Property read `map[guid]` on a JS object map: first (only) entry with
the given key. -/
def alistGet (g : Nat) : List (Nat × CollisionRecord) → Option CollisionRecord
  | [] => none
  | e :: rest => if e.1 = g then some e.2 else alistGet g rest

/-- Property write `map[guid] = r` on a JS object map: overwrite the first
(only) entry with the given key in place, or append a fresh key at the
end. -/
def alistSet (g : Nat) (r : CollisionRecord) :
    List (Nat × CollisionRecord) → List (Nat × CollisionRecord)
  | [] => [(g, r)]
  | e :: rest => if e.1 = g then (g, r) :: rest else e :: alistSet g r rest

/-- The persistent others-list registered under a guid (`[]` when the guid
has no record, matching the `|| { others: [] }` default). -/
def persistentOthersG (s : ProviderState) (g : Nat) : List Entity :=
  ((alistGet g s.collisions).map CollisionRecord.others).getD []

/-- The persistent others-list of an entity's record. -/
def persistentOthers (s : ProviderState) (e : Entity) : List Entity :=
  persistentOthersG s e.guid

/-- The transient (frame) others-list registered under a guid. -/
def frameOthersG (s : ProviderState) (g : Nat) : List Entity :=
  ((alistGet g s.frameCollisions).map CollisionRecord.others).getD []

/-- The transient (frame) others-list of an entity's record. -/
def frameOthers (s : ProviderState) (e : Entity) : List Entity :=
  frameOthersG s e.guid

/-- Models `PhysicsProvider._storeCollision(entity, other)`: ensure a persistent
record for `entity.getGuid()` exists, push `other` onto its others-list if
absent (that makes the collision new), and unconditionally push `other`
onto the transient record's others-list. Returns the `isNewCollision`
flag together with the updated maps. -/
def storeCollision (s : ProviderState) (entity other : Entity) :
    Bool × ProviderState :=
  let guid := entity.guid
  let rec0 := (alistGet guid s.collisions).getD ⟨entity, []⟩
  let isNew := decide (other ∉ rec0.others)
  let rec1 := if other ∈ rec0.others then rec0 else
    ⟨rec0.entity, rec0.others ++ [other]⟩
  let fr0 := (alistGet guid s.frameCollisions).getD ⟨entity, []⟩
  let fr1 : CollisionRecord := ⟨fr0.entity, fr0.others ++ [other]⟩
  (isNew,
   { collisions := alistSet guid rec1 s.collisions,
     frameCollisions := alistSet guid fr1 s.frameCollisions })

/-- Whether the transient record for a guid lists the given other entity
(`frameCollision && frameCollision.others.indexOf(other) >= 0`). -/
def frameHas (s : ProviderState) (g : Nat) (o : Entity) : Bool :=
  match alistGet g s.frameCollisions with
  | some fr => decide (o ∈ fr.others)
  | none => false

/-- The events `_cleanOldCollisions` fires on removing `other` from the
record owned by `entity`: `triggerleave` on the owner's collision
component and on the other's rigid-body component when the owner is a
trigger volume; `collisionend` on the owner's rigid-body and collision
components when neither side is a trigger; nothing when only the other
side is a trigger. -/
def exitEvents (entity other : Entity) : List Event :=
  if entity.trigger then
    (if entity.hasCollision then
       [⟨.collision, entity, .triggerleave, other⟩] else []) ++
    (if other.hasRigidbody then
       [⟨.rigidbody, other, .triggerleave, entity⟩] else [])
  else if !other.trigger then
    (if entity.hasRigidbody then
       [⟨.rigidbody, entity, .collisionend, other⟩] else []) ++
    (if entity.hasCollision then
       [⟨.collision, entity, .collisionend, other⟩] else [])
  else []

/-- The per-record `while (i--)` loop of `_cleanOldCollisions`: walk the
others-list from the last index down, splice out every other that the
transient record does not list, and fire its exit events. Returns the
remaining others-list and the fired events in firing order (descending
index). -/
def cleanOthers (s : ProviderState) (g : Nat) (entity : Entity) :
    List Entity → List Entity × List Event
  | [] => ([], [])
  | o :: rest =>
    let r := cleanOthers s g entity rest
    if frameHas s g o then (o :: r.1, r.2)
    else (r.1, r.2 ++ exitEvents entity o)

/-- Processing of one record of the `for..in` loop of
`_cleanOldCollisions`, accumulating the surviving records and the fired
events. -/
def cleanStep (s : ProviderState)
    (acc : List (Nat × CollisionRecord) × List Event)
    (e : Nat × CollisionRecord) :
    List (Nat × CollisionRecord) × List Event :=
  let r := cleanOthers s e.1 e.2.entity e.2.others
  (acc.1 ++ (if r.1.isEmpty then [] else [(e.1, ⟨e.2.entity, r.1⟩)]),
   acc.2 ++ r.2)

/-- Models `PhysicsProvider._cleanOldCollisions`: for every persistent record,
remove the others absent from the transient map (firing exit events), and
delete the record when its others-list became empty. -/
def cleanOldCollisions (s : ProviderState) : ProviderState × List Event :=
  let res := s.collisions.foldl (cleanStep s) ([], [])
  ({ s with collisions := res.1 }, res.2)

/-- Declarative form of one record's surviving entry. -/
def cleanedEntry (s : ProviderState) (e : Nat × CollisionRecord) :
    List (Nat × CollisionRecord) :=
  let kept := e.2.others.filter (fun o => frameHas s e.1 o)
  if kept.isEmpty then [] else [(e.1, ⟨e.2.entity, kept⟩)]

/-- Declarative form of one record's exit events: one `exitEvents` block
per removed other, in descending index order. -/
def recordExitEvents (s : ProviderState) (e : Nat × CollisionRecord) :
    List Event :=
  ((e.2.others.filter (fun o => !frameHas s e.1 o)).reverse).flatMap
    (exitEvents e.2.entity)

/-- Presence of any triggerenter/triggerleave listener on an entity's
collision component (`e0Events` / `e1Events` in `_checkForCollisions`). -/
def triggerCollisionEvents (e : Entity) : Bool :=
  e.hasCollision && (e.collisionEvents.contains .triggerenter ||
    e.collisionEvents.contains .triggerleave)

/-- Presence of any triggerenter/triggerleave listener on an entity's
rigid-body component (`e0BodyEvents` / `e1BodyEvents`). -/
def triggerBodyEvents (e : Entity) : Bool :=
  e.hasRigidbody && (e.rigidbodyEvents.contains .triggerenter ||
    e.rigidbodyEvents.contains .triggerleave)

/-- First check of the trigger branch (`e0Events`): when `e0.collision`
has trigger listeners, store the pair under `e0` and fire `triggerenter`
on `e0.collision` when the store was fresh and body 1 is not flagged
no-response. Result: (state, events fired so far, `newCollision`). -/
def triggerCheck1 (e0 e1 : Entity) (s : ProviderState) :
    ProviderState × List Event × Bool :=
  if triggerCollisionEvents e0 then
    let r := storeCollision s e0 e1
    (r.2,
     (if r.1 && !e1.noResponse then [⟨.collision, e0, .triggerenter, e1⟩]
      else []),
     r.1)
  else (s, [], false)

/-- Second check (`e1Events`): store under `e1` and fire `triggerenter`
on `e1.collision` when the store was fresh and body 0 is not flagged;
the `newCollision` flag is overwritten by the store result. -/
def triggerCheck2 (e0 e1 : Entity) (p : ProviderState × List Event × Bool) :
    ProviderState × List Event × Bool :=
  if triggerCollisionEvents e1 then
    let r := storeCollision p.1 e1 e0
    (r.2,
     p.2.1 ++
       (if r.1 && !e0.noResponse then [⟨.collision, e1, .triggerenter, e0⟩]
        else []),
     r.1)
  else p

/-- Third check (`e0BodyEvents`): when the flag is still falsy perform
the fallback store `_storeCollision(e1, e0)`; fire `triggerenter` on
`e0.rigidbody` when the flag ends up set (no opposite-flag gate). -/
def triggerCheck3 (e0 e1 : Entity) (p : ProviderState × List Event × Bool) :
    ProviderState × List Event × Bool :=
  if triggerBodyEvents e0 then
    let r := if !p.2.2 then storeCollision p.1 e1 e0 else (p.2.2, p.1)
    (r.2,
     p.2.1 ++ (if r.1 then [⟨.rigidbody, e0, .triggerenter, e1⟩] else []),
     r.1)
  else p

/-- Fourth check (`e1BodyEvents`): symmetric to the third with the
fallback store `_storeCollision(e0, e1)` and firing on `e1.rigidbody`. -/
def triggerCheck4 (e0 e1 : Entity) (p : ProviderState × List Event × Bool) :
    ProviderState × List Event × Bool :=
  if triggerBodyEvents e1 then
    let r := if !p.2.2 then storeCollision p.1 e0 e1 else (p.2.2, p.1)
    (r.2,
     p.2.1 ++ (if r.1 then [⟨.rigidbody, e1, .triggerenter, e0⟩] else []),
     r.1)
  else p

/-- The trigger branch of `_checkForCollisions` for one manifold whose
bodies own `e0`/`e1` (at least one body flagged no-response, at least
one contact): the four checks in source order, sharing one
`newCollision` flag that starts out falsy. -/
def processTriggerManifold (s : ProviderState) (e0 e1 : Entity) :
    ProviderState × List Event :=
  let p := triggerCheck4 e0 e1
    (triggerCheck3 e0 e1 (triggerCheck2 e0 e1 (triggerCheck1 e0 e1 s)))
  (p.1, p.2.1)

/-- Per-entity notification of the physical-contact branch: store the
collision under `e` and fire `contact` (always) and `collisionstart`
(iff the store was fresh) on `e`'s present components, with `other` as
the pair's other entity. -/
def contactNotify (e other : Entity) (s : ProviderState) :
    ProviderState × List Event :=
  let r := storeCollision s e other
  (r.2,
   (if e.hasCollision then
      ⟨.collision, e, .contact, other⟩ ::
        (if r.1 then [⟨.collision, e, .collisionstart, other⟩] else [])
    else []) ++
   (if e.hasRigidbody then
      ⟨.rigidbody, e, .contact, other⟩ ::
        (if r.1 then [⟨.rigidbody, e, .collisionstart, other⟩] else [])
    else []))

/-- The physical-contact branch of `_checkForCollisions` for one manifold
(neither body flagged no-response, at least one contact). If nobody
listens, nothing happens with zero allocations. Otherwise the global
`contact` event fires once per discrete contact point, then each entity
with a qualifying listener set runs `contactNotify`. Contact-point
translation and pooling have no observable effect here; an event records
the pair. -/
def processContactManifold (sysHasContact : Bool) (s : ProviderState)
    (e0 e1 : Entity) (numContacts : Nat) : ProviderState × List Event :=
  let e0Events := hasContactEvent e0
  let e1Events := hasContactEvent e1
  let globalEvents := sysHasContact
  if globalEvents || e0Events || e1Events then
    let globalEvs := if globalEvents then
      List.replicate numContacts ⟨.system, e0, .contact, e1⟩ else []
    let r0 := if e0Events then contactNotify e0 e1 s else (s, [])
    let r1 := if e1Events then contactNotify e1 e0 r0.1 else (r0.1, [])
    (r1.1, globalEvs ++ r0.2 ++ r1.2)
  else (s, [])

/-- One entry of the dispatcher's manifold list: the owning entities
resolved from the two bodies (`none` models a body whose `entity` does
not resolve) and the number of discrete contact points. The body's
no-response collision flag is read from the owning entity's `noResponse`
field (one body per entity). -/
structure Manifold where
  e0 : Option Entity
  e1 : Option Entity
  numContacts : Nat
  deriving DecidableEq, Repr

/-- Processing of one manifold inside the loop of `_checkForCollisions`:
skip it when either owning entity is unresolved or it has no contacts;
otherwise take the trigger branch when either body is flagged
no-response, and the physical-contact branch when neither is. -/
def processManifold (sysHasContact : Bool)
    (acc : ProviderState × List Event) (m : Manifold) :
    ProviderState × List Event :=
  match m.e0, m.e1 with
  | some e0, some e1 =>
    if m.numContacts > 0 then
      if e0.noResponse || e1.noResponse then
        let r := processTriggerManifold acc.1 e0 e1
        (r.1, acc.2 ++ r.2)
      else
        let r := processContactManifold sysHasContact acc.1 e0 e1 m.numContacts
        (r.1, acc.2 ++ r.2)
    else acc
  | _, _ => acc

/-- Models `AmmoProvider._checkForCollisions` (one detection-and-event
pass): reset the transient map to empty, process every manifold of the
dispatcher, then run `_cleanOldCollisions`. The three pool `freeAll`
calls at the end have no observable effect in this model. -/
def checkForCollisions (sysHasContact : Bool) (manifolds : List Manifold)
    (s : ProviderState) : ProviderState × List Event :=
  let s0 : ProviderState := { s with frameCollisions := [] }
  let r := manifolds.foldl (processManifold sysHasContact) (s0, [])
  let c := cleanOldCollisions r.1
  (c.1, r.2 ++ c.2)

/-- The backend capability `init` and `afterStep` test: truthiness of
`dynamicsWorld.setInternalTickCallback`. -/
structure WorldCaps where
  setInternalTickCallback : Bool
  deriving DecidableEq, Repr

/-- The compatibility warning text `init` passes to `Debug.warn` when the
capability is missing. -/
def ammoCompatWarning : String :=
  "WARNING: This version of ammo.js can potentially fail to report contacts. Please update it to the latest version."

/-- Warnings emitted by `AmmoProvider.init`: with
`setInternalTickCallback` present the collision callback is registered
silently; otherwise the one-time compatibility warning is emitted. -/
def initWarnings (caps : WorldCaps) : List String :=
  if caps.setInternalTickCallback then [] else [ammoCompatWarning]

/-- A thrown JS `ReferenceError` for reading an identifier with no
binding in any enclosing scope. -/
structure JsReferenceError where
  name : String
  deriving DecidableEq, Repr

/-- Models `AmmoProvider.afterStep`. When the dynamics world has
`setInternalTickCallback`, the body is skipped: no detection pass runs
and no events fire. Otherwise the fallback branch evaluates
`this._checkForCollisions(Ammo.getPointer(this.dynamicsWorld), dt)`:
the argument expression reads the identifier `dt`, which has no binding
in `afterStep`, the class, or the module scope (it is a parameter of
`step`, not of `afterStep`), so the evaluation throws a `ReferenceError`
before `_checkForCollisions` is entered — the detection pass never runs
on this path. -/
def afterStep (caps : WorldCaps) (sysHasContact : Bool)
    (manifolds : List Manifold) (s : ProviderState) :
    Except JsReferenceError (ProviderState × List Event) :=
  if caps.setInternalTickCallback then .ok (s, [])
  else .error ⟨"dt"⟩

/-- A world-space vector as used by the ray results. -/
structure V3 where
  x : Rat
  y : Rat
  z : Rat
  deriving DecidableEq, Repr

/-- One backend ray hit: whether `Ammo.castObject(obj, Ammo.btRigidBody)`
is truthy, the body's owning entity (`none` models a falsy
`body.entity`), and the hit point / normal / fraction. -/
structure Hit where
  bodyCast : Bool
  entity : Option Entity
  point : V3
  normal : V3
  fraction : Rat
  deriving DecidableEq, Repr

/-- Models the `RaycastResult` record handed back to callers (its
`entity` field is whatever `body.entity` held, possibly nothing). -/
structure RaycastResult where
  entity : Option Entity
  point : V3
  normal : V3
  hitFraction : Rat
  deriving DecidableEq, Repr

/-- Outcomes of the backend's two ray query primitives for the ray being
cast: `closest` is the closest-hit query result (`none` when
`hasHit()` is false), `allHits` the raw hit list of the all-hits query
(`hasHit()` false iff empty). -/
structure Backend where
  closest : Option Hit
  allHits : List Hit

/-- Options object of `raycastFirst` / `raycastAll`. The group/mask
bitmasks are forwarded to the backend query (their effect is inside
`Backend`); `filterTags` is the flat tag-list form of a `Tags#has`
query; `filterCallback` is the caller's predicate. -/
structure RayOptions where
  filterCollisionGroup : Option Int := none
  filterCollisionMask : Option Int := none
  filterTags : Option (List Nat) := none
  filterCallback : Option (Entity → Bool) := none
  sort : Bool := false

/-- Models `entity.tags.has(...filterTags)` for a flat tag list: true iff
the entity carries at least one of the queried tags. (The nested-array
AND form of the grammar is not modelled; no claim depends on it.) -/
def tagsHas (e : Entity) (q : List Nat) : Bool :=
  q.any (fun t => e.tags.contains t)

/-- The `continue` condition of the `raycastAll` loop:
`options.filterTags && !entity.tags.has(...) || options.filterCallback
&& !options.filterCallback(entity)`. -/
def filteredOut (opts : RayOptions) (e : Entity) : Bool :=
  (match opts.filterTags with
   | some q => !tagsHas e q
   | none => false) ||
  (match opts.filterCallback with
   | some cb => !cb e
   | none => false)

/-- Building a `RaycastResult` from a backend hit. -/
def mkRaycastResult (h : Hit) : RaycastResult :=
  ⟨h.entity, h.point, h.normal, h.fraction⟩

/-- The collection loop of `raycastAll`: keep a hit iff its collision
object casts to a rigid body, that body has an owning entity, and the
entity passes the tag/callback filters. -/
def collectHits (opts : RayOptions) : List Hit → List RaycastResult
  | [] => []
  | h :: rest =>
    match h.bodyCast, h.entity with
    | true, some e =>
      if filteredOut opts e then collectHits opts rest
      else mkRaycastResult h :: collectHits opts rest
    | _, _ => collectHits opts rest

/-- The qualification test `collectHits` implements, as a predicate. -/
def qualifiesHit (opts : RayOptions) (h : Hit) : Bool :=
  h.bodyCast && (match h.entity with
    | some e => !filteredOut opts e
    | none => false)

/-- Stable insertion into a hitFraction-sorted list, placing the new
element before the first element of larger-or-equal fraction. -/
def insertByFraction (r : RaycastResult) :
    List RaycastResult → List RaycastResult
  | [] => [r]
  | x :: xs => if r.hitFraction ≤ x.hitFraction then r :: x :: xs
               else x :: insertByFraction r xs

/-- Models `results.sort((a, b) => a.hitFraction - b.hitFraction)`: the
stable sort (ES2019 semantics) ordering ascending by hitFraction. -/
def sortByFraction : List RaycastResult → List RaycastResult
  | [] => []
  | x :: xs => insertByFraction x (sortByFraction xs)

/-- Models `AmmoProvider.raycastAll(start, end, options)`: run the
all-hits backend query, build one result per hit with a resolvable
owning entity that passes the tag/callback filters, and sort by
hitFraction when `options.sort` is set. Always returns a list. -/
def raycastAll (B : Backend) (opts : RayOptions) : List RaycastResult :=
  if B.allHits.isEmpty then []
  else
    let results := collectHits opts B.allHits
    if opts.sort then sortByFraction results else results

/-- Models `AmmoProvider.raycastFirst(start, end, options)`. With
`filterTags` or `filterCallback` present, the code mutates the caller's
options object (`options.sort = true`) and returns
`this.raycastAll(start, end, options)[0] || null`; otherwise it runs the
closest-hit backend query and builds a result whenever the collision
object casts to a rigid body (regardless of whether `body.entity`
resolves). The returned pair is (result, final state of the caller's
options object). -/
def raycastFirst (B : Backend) (opts : RayOptions) :
    Option RaycastResult × RayOptions :=
  if opts.filterTags.isSome || opts.filterCallback.isSome then
    let opts2 := { opts with sort := true }
    ((raycastAll B opts2).head?, opts2)
  else
    (match B.closest with
     | some h => if h.bodyCast then some (mkRaycastResult h) else none
     | none => none,
     opts)

/-- States reachable from a start state by a sequence of
`storeCollision` calls (the only state mutations the detection branches
perform). -/
inductive StoreReach : ProviderState → ProviderState → Prop
  | refl (s : ProviderState) : StoreReach s s
  | step (s t : ProviderState) (e o : Entity) :
      StoreReach s t → StoreReach s (storeCollision t e o).2

/-- The others-list invariant: no persistent record's others-list
contains duplicate entries. -/
def othersNodup (s : ProviderState) : Prop :=
  ∀ x ∈ s.collisions, x.2.others.Nodup

/-- Sample trigger-volume entity (collision component with trigger
listeners, no-response body). -/
def entTrig : Entity :=
  ⟨0, true, false, true, true, [.triggerenter, .triggerleave], [], []⟩

/-- Sample plain rigid-body entity with trigger listeners on the body. -/
def entBody : Entity :=
  ⟨1, false, true, false, false, [], [.triggerenter, .triggerleave], []⟩

/-- Sample no-response entity with only a rigid-body component carrying a
triggerenter listener. -/
def entBodyNR : Entity :=
  ⟨2, false, true, false, true, [], [.triggerenter], []⟩

/-- Sample bare no-response entity (no components, no listeners). -/
def entBareNR : Entity :=
  ⟨3, false, false, false, true, [], [], []⟩

/-- Sample entity with contact listeners on both components. -/
def entContact : Entity :=
  ⟨4, true, true, false, false,
   [.contact, .collisionstart, .collisionend],
   [.contact, .collisionstart, .collisionend], []⟩

/-- Sample plain entity used as the opposite body of `entContact`. -/
def entPlain : Entity :=
  ⟨5, false, true, false, false, [], [], []⟩

/-- Sample provider state holding one persistent pair
(`entTrig` → `entBody`) and an empty transient map. -/
def sampleTrigState : ProviderState :=
  ⟨[(0, ⟨entTrig, [entBody]⟩)], []⟩

/-- Sample backend whose closest-hit query reports a hit with a body
that has no owning entity. -/
def sampleOrphanBackend : Backend :=
  ⟨some ⟨true, none, ⟨0, 0, 0⟩, ⟨0, 1, 0⟩, (2 : Rat) / 5⟩, []⟩

/-- Sample backend for the all-hits query: three raw hits, out of order,
one with a failing cast and one with an unresolvable entity. -/
def sampleAllBackend : Backend :=
  ⟨none,
   [⟨true, some entContact, ⟨0, 3, 0⟩, ⟨0, 1, 0⟩, (7 : Rat) / 10⟩,
    ⟨false, some entPlain, ⟨0, 2, 0⟩, ⟨0, 1, 0⟩, (1 : Rat) / 10⟩,
    ⟨true, none, ⟨0, 1, 0⟩, ⟨0, 1, 0⟩, (1 : Rat) / 5⟩,
    ⟨true, some entPlain, ⟨0, 4, 0⟩, ⟨0, 1, 0⟩, (3 : Rat) / 10⟩]⟩

/-- Safety property every event of a detection pass satisfies: `contact`
and `collisionstart` only ever fire for a pair of bodies neither of
which is flagged no-response, and `collisionend` only ever fires for a
pair of entities neither of which is a trigger volume. -/
def eventSafe (ev : Event) : Prop :=
  ((ev.name = .contact ∨ ev.name = .collisionstart) →
    ev.owner.noResponse = false ∧ ev.other.noResponse = false) ∧
  (ev.name = .collisionend →
    ev.owner.trigger = false ∧ ev.other.trigger = false)

/-! ## Theorems -/

theorem alistGet_alistSet_self (g : Nat) (r : CollisionRecord)
    (l : List (Nat × CollisionRecord)) :
    alistGet g (alistSet g r l) = some r := by
  induction l with
  | nil => simp [alistGet, alistSet]
  | cons e rest ih =>
    by_cases h : e.1 = g
    · simp [alistGet, alistSet, h]
    · simp [alistGet, alistSet, h, ih]

theorem alistGet_alistSet_ne (g g' : Nat) (r : CollisionRecord)
    (l : List (Nat × CollisionRecord)) (h : g ≠ g') :
    alistGet g' (alistSet g r l) = alistGet g' l := by
  induction l with
  | nil => simp [alistGet, alistSet, h]
  | cons e rest ih =>
    obtain ⟨k, v⟩ := e
    by_cases he : k = g
    · subst he
      simp [alistGet, alistSet, h]
    · by_cases hk : k = g' <;>
        simp [alistGet, alistSet, he, hk, ih, Ne.symm h]

theorem alistSet_get_self (g : Nat) (r : CollisionRecord)
    (l : List (Nat × CollisionRecord)) (h : alistGet g l = some r) :
    alistSet g r l = l := by
  induction l with
  | nil => simp [alistGet] at h
  | cons e rest ih =>
    by_cases he : e.1 = g
    · simp [alistGet, he] at h
      have : e = (g, r) := by
        cases e; simp_all
      simp [alistSet, he, this]
    · simp [alistGet, he] at h
      simp [alistSet, he, ih h]

/-- An entry of the updated map is an old entry or the written one. -/
theorem mem_alistSet (g : Nat) (r : CollisionRecord)
    (l : List (Nat × CollisionRecord)) (x : Nat × CollisionRecord)
    (hx : x ∈ alistSet g r l) : x ∈ l ∨ x = (g, r) := by
  induction l with
  | nil => simpa [alistSet] using hx
  | cons e rest ih =>
    by_cases he : e.1 = g
    · simp [alistSet, he] at hx
      rcases hx with h | h
      · right; simpa using h
      · left; simp [h]
    · simp [alistSet, he] at hx
      rcases hx with h | h
      · left; simp [h]
      · rcases ih h with h' | h'
        · left; simp [h']
        · right; exact h'

theorem storeCollision_fst (s : ProviderState) (e o : Entity) :
    (storeCollision s e o).1 = true ↔ o ∉ persistentOthers s e := by
  simp only [storeCollision, persistentOthers, persistentOthersG,
    decide_eq_true_eq]
  cases alistGet e.guid s.collisions <;> simp

theorem persistentOthersG_storeCollision_self (s : ProviderState)
    (e o : Entity) :
    persistentOthersG (storeCollision s e o).2 e.guid =
      (if o ∈ persistentOthers s e then persistentOthers s e
       else persistentOthers s e ++ [o]) := by
  simp only [storeCollision, persistentOthers, persistentOthersG]
  cases h : alistGet e.guid s.collisions with
  | none => simp [h, alistGet_alistSet_self]
  | some rec =>
    by_cases hc : o ∈ rec.others <;>
      simp [h, hc, alistGet_alistSet_self]

theorem persistentOthersG_storeCollision_ne (s : ProviderState)
    (e o : Entity) (g : Nat) (hg : g ≠ e.guid) :
    persistentOthersG (storeCollision s e o).2 g = persistentOthersG s g := by
  simp only [storeCollision, persistentOthersG]
  rw [alistGet_alistSet_ne _ _ _ _ (Ne.symm hg)]

theorem frameOthersG_storeCollision_self (s : ProviderState) (e o : Entity) :
    frameOthersG (storeCollision s e o).2 e.guid = frameOthers s e ++ [o] := by
  simp only [storeCollision, frameOthers, frameOthersG]
  cases h : alistGet e.guid s.frameCollisions <;>
    simp [h, alistGet_alistSet_self]

theorem frameOthersG_storeCollision_ne (s : ProviderState)
    (e o : Entity) (g : Nat) (hg : g ≠ e.guid) :
    frameOthersG (storeCollision s e o).2 g = frameOthersG s g := by
  simp only [storeCollision, frameOthersG]
  rw [alistGet_alistSet_ne _ _ _ _ (Ne.symm hg)]

/-- When the pair is already registered, the persistent map is left
untouched (the write puts the identical record back). -/
theorem collisions_storeCollision_of_mem (s : ProviderState)
    (e o : Entity) (h : o ∈ persistentOthers s e) :
    (storeCollision s e o).2.collisions = s.collisions := by
  simp only [storeCollision]
  cases hg : alistGet e.guid s.collisions with
  | none =>
    exfalso
    simp [persistentOthers, persistentOthersG, hg] at h
  | some rec =>
    have hc : o ∈ rec.others := by
      simpa [persistentOthers, persistentOthersG, hg] using h
    simp [hg, hc, alistSet_get_self _ _ _ hg]

theorem cleanOthers_fst (s : ProviderState) (g : Nat) (entity : Entity)
    (l : List Entity) :
    (cleanOthers s g entity l).1 = l.filter (fun o => frameHas s g o) := by
  induction l with
  | nil => simp [cleanOthers]
  | cons o rest ih =>
    by_cases h : frameHas s g o <;> simp [cleanOthers, h, ih]

theorem cleanOthers_snd (s : ProviderState) (g : Nat) (entity : Entity)
    (l : List Entity) :
    (cleanOthers s g entity l).2 =
      ((l.filter (fun o => !frameHas s g o)).reverse).flatMap
        (exitEvents entity) := by
  induction l with
  | nil => simp [cleanOthers]
  | cons o rest ih =>
    by_cases h : frameHas s g o <;>
      simp [cleanOthers, h, ih, List.flatMap_append]

theorem cleanStep_eq (s : ProviderState)
    (acc : List (Nat × CollisionRecord) × List Event)
    (e : Nat × CollisionRecord) :
    cleanStep s acc e =
      (acc.1 ++ cleanedEntry s e, acc.2 ++ recordExitEvents s e) := by
  simp [cleanStep, cleanedEntry, recordExitEvents, cleanOthers_fst,
    cleanOthers_snd]

theorem foldl_cleanStep (s : ProviderState)
    (l : List (Nat × CollisionRecord))
    (acc : List (Nat × CollisionRecord) × List Event) :
    l.foldl (cleanStep s) acc =
      (acc.1 ++ l.flatMap (cleanedEntry s),
       acc.2 ++ l.flatMap (recordExitEvents s)) := by
  induction l generalizing acc with
  | nil => simp
  | cons e rest ih =>
    simp [List.foldl_cons, cleanStep_eq, ih]

/-- The surviving persistent map: each record keeps the others present in
the transient map, and is dropped when none survive. -/
theorem cleanOldCollisions_collisions (s : ProviderState) :
    (cleanOldCollisions s).1.collisions = s.collisions.flatMap (cleanedEntry s) := by
  simp [cleanOldCollisions, foldl_cleanStep]

/-- The transient map is untouched by the cleaning pass. -/
theorem cleanOldCollisions_frame (s : ProviderState) :
    (cleanOldCollisions s).1.frameCollisions = s.frameCollisions := by
  simp [cleanOldCollisions]

/-- All fired events: per record, one `exitEvents` block per removed
other. -/
theorem cleanOldCollisions_events (s : ProviderState) :
    (cleanOldCollisions s).2 = s.collisions.flatMap (recordExitEvents s) := by
  simp [cleanOldCollisions, foldl_cleanStep]

theorem alistGet_eq_none_of_keys (g : Nat)
    (l : List (Nat × CollisionRecord)) (h : ∀ x ∈ l, x.1 ≠ g) :
    alistGet g l = none := by
  induction l with
  | nil => rfl
  | cons e rest ih =>
    have he : e.1 ≠ g := h e (by simp)
    simp only [alistGet, if_neg he]
    exact ih fun x hx => h x (by simp [hx])

theorem alistGet_append_of_keys (g : Nat)
    (l1 l2 : List (Nat × CollisionRecord)) (h : ∀ x ∈ l1, x.1 ≠ g) :
    alistGet g (l1 ++ l2) = alistGet g l2 := by
  induction l1 with
  | nil => rfl
  | cons e rest ih =>
    have he : e.1 ≠ g := h e (by simp)
    simp only [List.cons_append, alistGet, if_neg he]
    exact ih fun x hx => h x (by simp [hx])

theorem mem_cleanedEntry_key (s : ProviderState) (e : Nat × CollisionRecord)
    (x : Nat × CollisionRecord) (hx : x ∈ cleanedEntry s e) : x.1 = e.1 := by
  simp only [cleanedEntry] at hx
  split at hx <;> simp_all

theorem alistGet_flatMap_cleanedEntry (s : ProviderState) (g : Nat)
    (rec : CollisionRecord) (l : List (Nat × CollisionRecord))
    (hk : (l.map Prod.fst).Nodup)
    (h : alistGet g l = some rec) :
    alistGet g (l.flatMap (cleanedEntry s)) =
      (if (rec.others.filter (fun o => frameHas s g o)).isEmpty then none
       else some ⟨rec.entity, rec.others.filter (fun o => frameHas s g o)⟩) := by
  induction l with
  | nil => simp [alistGet] at h
  | cons e rest ih =>
    obtain ⟨k, v⟩ := e
    rw [List.flatMap_cons]
    by_cases hkg : k = g
    · subst hkg
      have hv : v = rec := by simpa [alistGet] using h
      subst hv
      have hnotin : k ∉ rest.map Prod.fst := by
        rw [List.map_cons, List.nodup_cons] at hk
        exact hk.1
      have hrest : alistGet k (rest.flatMap (cleanedEntry s)) = none := by
        apply alistGet_eq_none_of_keys
        intro x hx hxg
        rcases List.mem_flatMap.mp hx with ⟨y, hy, hxy⟩
        have hxy1 : x.1 = y.1 := mem_cleanedEntry_key s y x hxy
        apply hnotin
        rw [← hxg, hxy1]
        exact List.mem_map_of_mem Prod.fst hy
      by_cases hkept : (v.others.filter (fun o => frameHas s k o)).isEmpty
      · have hce : cleanedEntry s (k, v) = [] := by
          simp only [cleanedEntry]
          rw [if_pos hkept]
        rw [hce, List.nil_append, hrest, if_pos hkept]
      · have hce : cleanedEntry s (k, v) =
            [(k, ⟨v.entity, v.others.filter (fun o => frameHas s k o)⟩)] := by
          simp only [cleanedEntry]
          rw [if_neg hkept]
        rw [hce, if_neg hkept]
        simp [alistGet]
    · have h' : alistGet g rest = some rec := by
        simpa [alistGet, hkg] using h
      have hk' : (rest.map Prod.fst).Nodup := by
        rw [List.map_cons, List.nodup_cons] at hk
        exact hk.2
      rw [alistGet_append_of_keys]
      · exact ih hk' h'
      · intro x hx
        have hx1 : x.1 = k := mem_cleanedEntry_key s (k, v) x hx
        simp [hx1, hkg]

/-- Lookup after the cleaning pass: the record for a registered guid is
kept with the surviving others, or deleted when none survive. -/
theorem alistGet_cleanOldCollisions (s : ProviderState) (g : Nat)
    (rec : CollisionRecord)
    (hk : (s.collisions.map Prod.fst).Nodup)
    (h : alistGet g s.collisions = some rec) :
    alistGet g (cleanOldCollisions s).1.collisions =
      (if (rec.others.filter (fun o => frameHas s g o)).isEmpty then none
       else some ⟨rec.entity, rec.others.filter (fun o => frameHas s g o)⟩) := by
  rw [cleanOldCollisions_collisions]
  exact alistGet_flatMap_cleanedEntry s g rec s.collisions hk h

theorem collectHits_eq_filterMap (opts : RayOptions) (l : List Hit) :
    collectHits opts l = (l.filter (qualifiesHit opts)).map mkRaycastResult := by
  induction l with
  | nil => simp [collectHits]
  | cons h rest ih =>
    cases hb : h.bodyCast with
    | false => simp [collectHits, hb, qualifiesHit, ih]
    | true =>
      cases he : h.entity with
      | none => simp [collectHits, hb, he, qualifiesHit, ih]
      | some e =>
        by_cases hf : filteredOut opts e <;>
          simp [collectHits, hb, he, hf, qualifiesHit, ih]

theorem insertByFraction_perm (r : RaycastResult) (l : List RaycastResult) :
    (insertByFraction r l).Perm (r :: l) := by
  induction l with
  | nil => simp [insertByFraction]
  | cons x xs ih =>
    by_cases h : r.hitFraction ≤ x.hitFraction
    · simp [insertByFraction, h]
    · simp only [insertByFraction, if_neg h]
      exact ((ih.cons x).trans (List.Perm.swap r x xs))

theorem sortByFraction_perm (l : List RaycastResult) :
    (sortByFraction l).Perm l := by
  induction l with
  | nil => simp [sortByFraction]
  | cons x xs ih =>
    exact (insertByFraction_perm x (sortByFraction xs)).trans (ih.cons x)

theorem insertByFraction_sorted (r : RaycastResult)
    (l : List RaycastResult)
    (hl : l.Pairwise (fun a b => a.hitFraction ≤ b.hitFraction)) :
    (insertByFraction r l).Pairwise
      (fun a b => a.hitFraction ≤ b.hitFraction) := by
  induction l with
  | nil => simp [insertByFraction]
  | cons x xs ih =>
    rcases List.pairwise_cons.mp hl with ⟨hx, hxs⟩
    by_cases h : r.hitFraction ≤ x.hitFraction
    · rw [insertByFraction, if_pos h]
      refine List.pairwise_cons.mpr ⟨?_, hl⟩
      intro b hb
      rcases List.mem_cons.mp hb with rfl | hb
      · exact h
      · exact le_trans h (hx b hb)
    · rw [insertByFraction, if_neg h]
      refine List.pairwise_cons.mpr ⟨?_, ih hxs⟩
      intro b hb
      have := (insertByFraction_perm r xs).mem_iff.mp hb
      rcases List.mem_cons.mp this with rfl | hb'
      · exact le_of_not_le h
      · exact hx b hb'

theorem sortByFraction_sorted (l : List RaycastResult) :
    (sortByFraction l).Pairwise (fun a b => a.hitFraction ≤ b.hitFraction) := by
  induction l with
  | nil => simp [sortByFraction]
  | cons x xs ih => exact insertByFraction_sorted x (sortByFraction xs) ih

theorem alistGet_mem (g : Nat) (l : List (Nat × CollisionRecord))
    (r : CollisionRecord) (h : alistGet g l = some r) : (g, r) ∈ l := by
  induction l with
  | nil => simp [alistGet] at h
  | cons e rest ih =>
    obtain ⟨k, v⟩ := e
    by_cases he : k = g
    · subst he
      have : v = r := by simpa [alistGet] using h
      subst this
      simp
    · have h' : alistGet g rest = some r := by simpa [alistGet, he] using h
      simp [ih h']

theorem othersNodup_storeCollision (s : ProviderState) (e o : Entity)
    (h : othersNodup s) : othersNodup (storeCollision s e o).2 := by
  intro x hx
  simp only [storeCollision] at hx
  rcases mem_alistSet _ _ _ _ hx with hx' | rfl
  · exact h x hx'
  · simp only []
    cases hg : alistGet e.guid s.collisions with
    | none => simp [hg]
    | some rec =>
      have hnd : rec.others.Nodup := h (e.guid, rec) (alistGet_mem _ _ _ hg)
      by_cases hc : o ∈ rec.others
      · simp [hg, hc, hnd]
      · simp [hg, hc, List.nodup_append, hnd]

theorem othersNodup_storeReach (s t : ProviderState)
    (hr : StoreReach s t) (h : othersNodup s) : othersNodup t := by
  induction hr with
  | refl => exact h
  | step t' e o _ ih => exact othersNodup_storeCollision _ e o ih

theorem StoreReach.trans (s t u : ProviderState)
    (h1 : StoreReach s t) (h2 : StoreReach t u) : StoreReach s u := by
  induction h2 with
  | refl => exact h1
  | step u' e o _ ih => exact StoreReach.step _ _ e o ih

theorem storeReach_triggerCheck1 (e0 e1 : Entity) (s : ProviderState) :
    StoreReach s (triggerCheck1 e0 e1 s).1 := by
  unfold triggerCheck1
  split_ifs <;> first
    | exact .refl _
    | exact .step _ _ _ _ (.refl _)

theorem storeReach_triggerCheck2 (e0 e1 : Entity)
    (p : ProviderState × List Event × Bool) :
    StoreReach p.1 (triggerCheck2 e0 e1 p).1 := by
  unfold triggerCheck2
  split_ifs <;> first
    | exact .refl _
    | exact .step _ _ _ _ (.refl _)

theorem storeReach_triggerCheck3 (e0 e1 : Entity)
    (p : ProviderState × List Event × Bool) :
    StoreReach p.1 (triggerCheck3 e0 e1 p).1 := by
  unfold triggerCheck3
  split_ifs <;> first
    | exact .refl _
    | exact .step _ _ _ _ (.refl _)

theorem storeReach_triggerCheck4 (e0 e1 : Entity)
    (p : ProviderState × List Event × Bool) :
    StoreReach p.1 (triggerCheck4 e0 e1 p).1 := by
  unfold triggerCheck4
  split_ifs <;> first
    | exact .refl _
    | exact .step _ _ _ _ (.refl _)

theorem storeReach_processTriggerManifold (s : ProviderState)
    (e0 e1 : Entity) :
    StoreReach s (processTriggerManifold s e0 e1).1 := by
  unfold processTriggerManifold
  exact ((((StoreReach.refl s).trans _ _ _
    (storeReach_triggerCheck1 e0 e1 s)).trans _ _ _
    (storeReach_triggerCheck2 e0 e1 _)).trans _ _ _
    (storeReach_triggerCheck3 e0 e1 _)).trans _ _ _
    (storeReach_triggerCheck4 e0 e1 _)

theorem storeReach_contactNotify (e other : Entity) (s : ProviderState) :
    StoreReach s (contactNotify e other s).1 :=
  StoreReach.step _ _ _ _ (.refl _)

theorem storeReach_processContactManifold (shc : Bool)
    (s : ProviderState) (e0 e1 : Entity) (n : Nat) :
    StoreReach s (processContactManifold shc s e0 e1 n).1 := by
  simp only [processContactManifold]
  split_ifs <;>
    first
      | exact .refl _
      | exact storeReach_contactNotify _ _ _
      | exact ((StoreReach.refl s).trans _ _ _
          (storeReach_contactNotify e0 e1 s)).trans _ _ _
          (storeReach_contactNotify e1 e0 _)

theorem storeReach_processManifold (shc : Bool)
    (acc : ProviderState × List Event) (m : Manifold) :
    StoreReach acc.1 (processManifold shc acc m).1 := by
  unfold processManifold
  rcases m with ⟨e0, e1, n⟩
  cases e0 with
  | none => exact .refl _
  | some a =>
    cases e1 with
    | none => exact .refl _
    | some b =>
      dsimp only
      split_ifs
      · exact storeReach_processTriggerManifold _ a b
      · exact storeReach_processContactManifold shc _ a b n
      · exact .refl _

theorem storeReach_foldl_processManifold (shc : Bool)
    (manifolds : List Manifold) (acc : ProviderState × List Event) :
    StoreReach acc.1 ((manifolds.foldl (processManifold shc) acc).1) := by
  induction manifolds generalizing acc with
  | nil => exact .refl _
  | cons m rest ih =>
    rw [List.foldl_cons]
    exact StoreReach.trans _ _ _
      (storeReach_processManifold shc acc m)
      (ih (processManifold shc acc m))

theorem othersNodup_cleanOldCollisions (s : ProviderState)
    (h : othersNodup s) : othersNodup (cleanOldCollisions s).1 := by
  intro x hx
  rw [cleanOldCollisions_collisions] at hx
  rcases List.mem_flatMap.mp hx with ⟨y, hy, hxy⟩
  simp only [cleanedEntry] at hxy
  split at hxy
  · simp at hxy
  · rcases List.mem_singleton.mp hxy with rfl
    exact List.Nodup.filter _ (h y hy)

theorem cleanOldCollisions_no_empty (s : ProviderState) :
    ∀ x ∈ (cleanOldCollisions s).1.collisions, x.2.others ≠ [] := by
  intro x hx
  rw [cleanOldCollisions_collisions] at hx
  rcases List.mem_flatMap.mp hx with ⟨y, hy, hxy⟩
  simp only [cleanedEntry] at hxy
  split at hxy
  · simp at hxy
  · rcases List.mem_singleton.mp hxy with rfl
    simp only []
    intro hcon
    simp_all

theorem eventSafe_of_name (ev : Event)
    (h : ev.name = .triggerenter ∨ ev.name = .triggerleave) :
    eventSafe ev := by
  rcases h with h | h <;> constructor <;> (intro hc; rw [h] at hc) <;>
    first
      | (rcases hc with hc | hc <;> exact absurd hc (by simp))
      | exact absurd hc (by simp)

/-- Membership characterization of `exitEvents`. -/
theorem mem_exitEvents (a b : Entity) (ev : Event) :
    ev ∈ exitEvents a b ↔
      (a.trigger = true ∧ a.hasCollision = true ∧
        ev = ⟨.collision, a, .triggerleave, b⟩) ∨
      (a.trigger = true ∧ b.hasRigidbody = true ∧
        ev = ⟨.rigidbody, b, .triggerleave, a⟩) ∨
      (a.trigger = false ∧ b.trigger = false ∧ a.hasRigidbody = true ∧
        ev = ⟨.rigidbody, a, .collisionend, b⟩) ∨
      (a.trigger = false ∧ b.trigger = false ∧ a.hasCollision = true ∧
        ev = ⟨.collision, a, .collisionend, b⟩) := by
  cases ha : a.trigger <;> cases hb : b.trigger <;>
    cases hc : a.hasCollision <;> cases hr : a.hasRigidbody <;>
    cases hbr : b.hasRigidbody <;>
    simp [exitEvents, ha, hb, hc, hr, hbr, or_assoc, or_comm]

theorem exitEvents_safe (a b : Entity) (ev : Event)
    (h : ev ∈ exitEvents a b) : eventSafe ev := by
  rcases (mem_exitEvents a b ev).mp h with ⟨_, _, rfl⟩ | ⟨_, _, rfl⟩ |
    ⟨ht, hbt, _, rfl⟩ | ⟨ht, hbt, _, rfl⟩ <;>
    constructor <;> intro hc <;> simp_all

theorem cleanOldCollisions_safe (s : ProviderState) (ev : Event)
    (h : ev ∈ (cleanOldCollisions s).2) : eventSafe ev := by
  rw [cleanOldCollisions_events] at h
  rcases List.mem_flatMap.mp h with ⟨x, _, hx⟩
  rcases List.mem_flatMap.mp hx with ⟨o, _, ho⟩
  exact exitEvents_safe _ o ev ho

theorem mem_triggerCheck1 (e0 e1 : Entity) (s : ProviderState) (ev : Event)
    (h : ev ∈ (triggerCheck1 e0 e1 s).2.1) : ev.name = .triggerenter := by
  simp only [triggerCheck1] at h
  split_ifs at h <;> simp_all

theorem mem_triggerCheck2 (e0 e1 : Entity)
    (p : ProviderState × List Event × Bool) (ev : Event)
    (h : ev ∈ (triggerCheck2 e0 e1 p).2.1) :
    ev ∈ p.2.1 ∨ ev.name = .triggerenter := by
  simp only [triggerCheck2] at h
  split_ifs at h <;>
    first
      | exact Or.inl h
      | (simp only [List.mem_append] at h
         rcases h with h | h
         · exact Or.inl h
         · first
             | (rcases List.mem_singleton.mp h with rfl; exact Or.inr rfl)
             | exact absurd h (by simp))

theorem mem_triggerCheck3 (e0 e1 : Entity)
    (p : ProviderState × List Event × Bool) (ev : Event)
    (h : ev ∈ (triggerCheck3 e0 e1 p).2.1) :
    ev ∈ p.2.1 ∨ ev.name = .triggerenter := by
  simp only [triggerCheck3] at h
  split_ifs at h <;>
    first
      | exact Or.inl h
      | (simp only [List.mem_append] at h
         rcases h with h | h
         · exact Or.inl h
         · first
             | (rcases List.mem_singleton.mp h with rfl; exact Or.inr rfl)
             | exact absurd h (by simp))

theorem mem_triggerCheck4 (e0 e1 : Entity)
    (p : ProviderState × List Event × Bool) (ev : Event)
    (h : ev ∈ (triggerCheck4 e0 e1 p).2.1) :
    ev ∈ p.2.1 ∨ ev.name = .triggerenter := by
  simp only [triggerCheck4] at h
  split_ifs at h <;>
    first
      | exact Or.inl h
      | (simp only [List.mem_append] at h
         rcases h with h | h
         · exact Or.inl h
         · first
             | (rcases List.mem_singleton.mp h with rfl; exact Or.inr rfl)
             | exact absurd h (by simp))

/-- Every event of the trigger branch is a `triggerenter`. -/
theorem mem_processTriggerManifold_name (s : ProviderState)
    (e0 e1 : Entity) (ev : Event)
    (h : ev ∈ (processTriggerManifold s e0 e1).2) :
    ev.name = .triggerenter := by
  simp only [processTriggerManifold] at h
  rcases mem_triggerCheck4 e0 e1 _ ev h with h | h
  · rcases mem_triggerCheck3 e0 e1 _ ev h with h | h
    · rcases mem_triggerCheck2 e0 e1 _ ev h with h | h
      · exact mem_triggerCheck1 e0 e1 s ev h
      · exact h
    · exact h
  · exact h

theorem mem_contactNotify (e other : Entity) (s : ProviderState) (ev : Event)
    (h : ev ∈ (contactNotify e other s).2) :
    ev.owner = e ∧ ev.other = other ∧
      (ev.name = .contact ∨ ev.name = .collisionstart) := by
  simp only [contactNotify] at h
  split_ifs at h <;>
    simp only [List.mem_append, List.mem_cons, List.mem_singleton,
      List.not_mem_nil, or_false, false_or] at h <;>
    aesop

/-- Every event of the physical-contact branch pairs `e0` and `e1` and
is a `contact` or `collisionstart` (globally or locally fired). -/
theorem mem_processContactManifold (shc : Bool) (s : ProviderState)
    (e0 e1 : Entity) (n : Nat) (ev : Event)
    (h : ev ∈ (processContactManifold shc s e0 e1 n).2) :
    ((ev.owner = e0 ∧ ev.other = e1) ∨ (ev.owner = e1 ∧ ev.other = e0)) ∧
      (ev.name = .contact ∨ ev.name = .collisionstart) := by
  simp only [processContactManifold] at h
  split_ifs at h <;> dsimp only at h <;>
    first
      | (simp at h; done)
      | (simp only [List.mem_append] at h
         rcases h with (h | h) | h
         · first
             | (simp at h; done)
             | (have hx := List.eq_of_mem_replicate h
                subst hx
                exact ⟨Or.inl ⟨rfl, rfl⟩, Or.inl rfl⟩)
         · first
             | (simp at h; done)
             | (obtain ⟨h1, h2, h3⟩ := mem_contactNotify e0 e1 _ ev h
                exact ⟨Or.inl ⟨h1, h2⟩, h3⟩)
         · first
             | (simp at h; done)
             | (obtain ⟨h1, h2, h3⟩ := mem_contactNotify e1 e0 _ ev h
                exact ⟨Or.inr ⟨h1, h2⟩, h3⟩))

theorem mem_processManifold (shc : Bool)
    (acc : ProviderState × List Event) (m : Manifold) (ev : Event)
    (h : ev ∈ (processManifold shc acc m).2) :
    ev ∈ acc.2 ∨ eventSafe ev := by
  unfold processManifold at h
  rcases m with ⟨me0, me1, n⟩
  cases me0 with
  | none => exact Or.inl h
  | some a =>
    cases me1 with
    | none => exact Or.inl h
    | some b =>
      dsimp only at h
      by_cases hn : n > 0
      · rw [if_pos hn] at h
        by_cases hf : (a.noResponse || b.noResponse) = true
        · rw [if_pos hf] at h
          dsimp only at h
          rcases List.mem_append.mp h with h | h
          · exact Or.inl h
          · exact Or.inr (eventSafe_of_name ev
              (Or.inl (mem_processTriggerManifold_name _ a b ev h)))
        · rw [if_neg hf] at h
          dsimp only at h
          rcases List.mem_append.mp h with h | h
          · exact Or.inl h
          · obtain ⟨hpair, hname⟩ := mem_processContactManifold shc _ a b n ev h
            have ha : a.noResponse = false := by
              rcases Bool.or_eq_false_iff.mp (Bool.not_eq_true _ |>.mp hf)
                with ⟨h1, _⟩
              exact h1
            have hb : b.noResponse = false := by
              rcases Bool.or_eq_false_iff.mp (Bool.not_eq_true _ |>.mp hf)
                with ⟨_, h2⟩
              exact h2
            refine Or.inr ⟨fun _ => ?_, fun hce => ?_⟩
            · rcases hpair with ⟨h1, h2⟩ | ⟨h1, h2⟩ <;> rw [h1, h2] <;>
                exact ⟨by assumption, by assumption⟩
            · rcases hname with hx | hx <;> rw [hx] at hce <;> simp at hce
      · rw [if_neg hn] at h
        exact Or.inl h

theorem mem_foldl_processManifold (shc : Bool) (manifolds : List Manifold)
    (acc : ProviderState × List Event) (ev : Event)
    (h : ev ∈ (manifolds.foldl (processManifold shc) acc).2) :
    ev ∈ acc.2 ∨ eventSafe ev := by
  induction manifolds generalizing acc with
  | nil => exact Or.inl h
  | cons m rest ih =>
    rw [List.foldl_cons] at h
    rcases ih (processManifold shc acc m) h with h' | h'
    · exact mem_processManifold shc acc m ev h'
    · exact Or.inr h'

/-- Every event fired by a detection-and-event pass satisfies
`eventSafe`. -/
theorem checkForCollisions_safe (shc : Bool) (manifolds : List Manifold)
    (s : ProviderState) (ev : Event)
    (h : ev ∈ (checkForCollisions shc manifolds s).2) : eventSafe ev := by
  unfold checkForCollisions at h
  dsimp only at h
  rcases List.mem_append.mp h with h | h
  · rcases mem_foldl_processManifold shc manifolds _ ev h with h' | h'
    · exact absurd h' (List.not_mem_nil ev)
    · exact h'
  · exact cleanOldCollisions_safe _ ev h

theorem storeCollision_fst_eq (s : ProviderState) (e o : Entity) :
    (storeCollision s e o).1 = decide (o ∉ persistentOthers s e) := by
  by_cases hm : o ∈ persistentOthers s e
  · have h1 : (storeCollision s e o).1 = false := by
      cases hb : (storeCollision s e o).1
      · rfl
      · exact absurd ((storeCollision_fst s e o).mp hb) (by simp [hm])
    simp [h1, hm]
  · have h1 : (storeCollision s e o).1 = true :=
      (storeCollision_fst s e o).mpr hm
    simp [h1, hm]

/-- Exact event list of the trigger branch for a manifold with two
distinct entities, as a function of the four listener flags, the two
prior-membership bits and the two no-response flags, tracing the shared
`newCollision` flag through the four checks. -/
theorem processTriggerManifold_events_eq (s : ProviderState)
    (e0 e1 : Entity) (hg : e0.guid ≠ e1.guid) :
    (processTriggerManifold s e0 e1).2 =
      (let E0c := triggerCollisionEvents e0
       let E1c := triggerCollisionEvents e1
       let E0b := triggerBodyEvents e0
       let E1b := triggerBodyEvents e1
       let a := decide (e1 ∈ persistentOthersG s e0.guid)
       let b := decide (e0 ∈ persistentOthersG s e1.guid)
       let n2 := if E1c then !b else (E0c && !a)
       let n3 := if E0b then (n2 || (!b && !E1c)) else n2
       (if E0c && (!a && !e1.noResponse) then
          [⟨.collision, e0, .triggerenter, e1⟩] else []) ++
       (if E1c && (!b && !e0.noResponse) then
          [⟨.collision, e1, .triggerenter, e0⟩] else []) ++
       (if E0b && (n2 || (!b && !E1c)) then
          [⟨.rigidbody, e0, .triggerenter, e1⟩] else []) ++
       (if E1b && (n3 || (!a && !E0c)) then
          [⟨.rigidbody, e1, .triggerenter, e0⟩] else [])) := by
  have hg' : e1.guid ≠ e0.guid := Ne.symm hg
  by_cases hE0c : triggerCollisionEvents e0 <;>
  by_cases hE1c : triggerCollisionEvents e1 <;>
  by_cases hE0b : triggerBodyEvents e0 <;>
  by_cases hE1b : triggerBodyEvents e1 <;>
  by_cases hA : e1 ∈ persistentOthersG s e0.guid <;>
  by_cases hB : e0 ∈ persistentOthersG s e1.guid <;>
    simp [processTriggerManifold, triggerCheck1, triggerCheck2,
      triggerCheck3, triggerCheck4, storeCollision_fst_eq,
      persistentOthers, persistentOthersG_storeCollision_self,
      persistentOthersG_storeCollision_ne, hg, hg',
      hE0c, hE1c, hE0b, hE1b, hA, hB]

theorem count_flatMap_eq_of_unique (l : List Entity)
    (f : Entity → List Event) (a : Entity) (ev : Event)
    (hl : l.Nodup) (ha : a ∈ l)
    (hother : ∀ b ∈ l, b ≠ a → ev ∉ f b) :
    (l.flatMap f).count ev = (f a).count ev := by
  induction l with
  | nil => simp at ha
  | cons x rest ih =>
    rw [List.flatMap_cons, List.count_append]
    rcases List.mem_cons.mp ha with rfl | ha'
    · have hz : (rest.flatMap f).count ev = 0 := by
        apply List.count_eq_zero.mpr
        intro hmem
        rcases List.mem_flatMap.mp hmem with ⟨b, hb, hbev⟩
        have hbx : b ≠ a := by
          rintro rfl
          exact (List.nodup_cons.mp hl).1 hb
        exact hother b (List.mem_cons_of_mem _ hb) hbx hbev
      rw [hz]
      simp
    · have hx : ev ∉ f x := hother x (List.mem_cons_self x rest)
        (by rintro rfl; exact (List.nodup_cons.mp hl).1 ha')
      rw [List.count_eq_zero.mpr hx,
        ih (List.nodup_cons.mp hl).2 ha'
          (fun b hb hbn => hother b (List.mem_cons_of_mem _ hb) hbn)]
      simp

/-- C1: for every persistent collision record and every other entity in
its others-list absent from the current transient record, a call to
`cleanOldCollisions` removes that other from the persistent list and
fires exactly one exit notification for the pair — `triggerleave` on the
owner's collision component and on the other's rigid-body component
(each if present, never `collisionend`) when the owner is a trigger
volume; otherwise `collisionend` on the owner's rigid-body and collision
components (each if present) when the other is not itself a trigger —
and afterwards the persistent record is deleted iff its others-list
became empty. -/
theorem claim1_cleanOldCollisions (s : ProviderState) (g : Nat)
    (rec : CollisionRecord) (o : Entity)
    (hkeys : (s.collisions.map Prod.fst).Nodup)
    (hrec : alistGet g s.collisions = some rec)
    (hnd : rec.others.Nodup)
    (ho : o ∈ rec.others)
    (habs : frameHas s g o = false) :
    ((cleanOldCollisions s).2 =
      s.collisions.flatMap (fun en =>
        ((en.2.others.filter (fun x => !frameHas s en.1 x)).reverse).flatMap
          (exitEvents en.2.entity))) ∧
    (alistGet g (cleanOldCollisions s).1.collisions =
      (if (rec.others.filter (fun x => frameHas s g x)).isEmpty then none
       else some ⟨rec.entity, rec.others.filter (fun x => frameHas s g x)⟩)) ∧
    (∀ rec', alistGet g (cleanOldCollisions s).1.collisions = some rec' →
      o ∉ rec'.others) ∧
    (let C := ((rec.others.filter (fun x => !frameHas s g x)).reverse).flatMap
        (exitEvents rec.entity)
     (rec.entity.trigger = true →
        C.count ⟨.collision, rec.entity, .triggerleave, o⟩ =
          (if rec.entity.hasCollision then 1 else 0) ∧
        C.count ⟨.rigidbody, o, .triggerleave, rec.entity⟩ =
          (if o.hasRigidbody then 1 else 0) ∧
        ∀ ev ∈ C, ev.name ≠ .collisionend) ∧
     (rec.entity.trigger = false → o.trigger = false →
        C.count ⟨.rigidbody, rec.entity, .collisionend, o⟩ =
          (if rec.entity.hasRigidbody then 1 else 0) ∧
        C.count ⟨.collision, rec.entity, .collisionend, o⟩ =
          (if rec.entity.hasCollision then 1 else 0) ∧
        ∀ ev ∈ C, ev.name ≠ .triggerleave) ∧
     (rec.entity.trigger = false → o.trigger = true →
        ∀ ev ∈ C, ev.owner ≠ o ∧ ev.other ≠ o)) := by
  have hremnd : ((rec.others.filter
      (fun x => !frameHas s g x)).reverse).Nodup :=
    List.nodup_reverse.mpr (List.Nodup.filter _ hnd)
  have homem : o ∈ (rec.others.filter (fun x => !frameHas s g x)).reverse := by
    rw [List.mem_reverse, List.mem_filter]
    exact ⟨ho, by simp [habs]⟩
  refine ⟨?_, ?_, ?_, ?_, ?_, ?_⟩
  · rw [cleanOldCollisions_events]
    rfl
  · exact alistGet_cleanOldCollisions s g rec hkeys hrec
  · intro rec' h'
    rw [alistGet_cleanOldCollisions s g rec hkeys hrec] at h'
    split at h'
    · exact absurd h' (by simp)
    · obtain rfl : (⟨rec.entity,
          rec.others.filter (fun x => frameHas s g x)⟩ :
          CollisionRecord) = rec' := by
        injection h'
      intro hmem
      have := (List.mem_filter.mp hmem).2
      simp [habs] at this
  · intro htrig
    refine ⟨?_, ?_, ?_⟩
    · rw [count_flatMap_eq_of_unique _ _ o _ hremnd homem ?side1]
      case side1 =>
        intro b hb hbo hmem
        rcases (mem_exitEvents _ _ _).mp hmem with ⟨_, _, hevq⟩ |
          ⟨_, _, hevq⟩ | ⟨hf, _, _, _⟩ | ⟨hf, _, _, _⟩
        · exact hbo (by injection hevq with _ _ _ h4; exact h4.symm)
        · exact absurd hevq (by simp)
        · rw [htrig] at hf; exact absurd hf (by simp)
        · rw [htrig] at hf; exact absurd hf (by simp)
      by_cases hc : rec.entity.hasCollision <;>
        by_cases hr : o.hasRigidbody <;>
        simp [exitEvents, htrig, hc, hr]
    · rw [count_flatMap_eq_of_unique _ _ o _ hremnd homem ?side2]
      case side2 =>
        intro b hb hbo hmem
        rcases (mem_exitEvents _ _ _).mp hmem with ⟨_, _, hevq⟩ |
          ⟨_, _, hevq⟩ | ⟨hf, _, _, _⟩ | ⟨hf, _, _, _⟩
        · exact absurd hevq (by simp)
        · exact hbo (by injection hevq with _ h2 _ _; exact h2.symm)
        · rw [htrig] at hf; exact absurd hf (by simp)
        · rw [htrig] at hf; exact absurd hf (by simp)
      by_cases hc : rec.entity.hasCollision <;>
        by_cases hr : o.hasRigidbody <;>
        simp [exitEvents, htrig, hc, hr]
    · intro ev hev
      rcases List.mem_flatMap.mp hev with ⟨b, _, hbev⟩
      rcases (mem_exitEvents _ _ _).mp hbev with ⟨_, _, rfl⟩ |
        ⟨_, _, rfl⟩ | ⟨hf, _, _, _⟩ | ⟨hf, _, _, _⟩
      · simp
      · simp
      · rw [htrig] at hf; exact absurd hf (by simp)
      · rw [htrig] at hf; exact absurd hf (by simp)
  · intro htrig hotrig
    refine ⟨?_, ?_, ?_⟩
    · rw [count_flatMap_eq_of_unique _ _ o _ hremnd homem ?side3]
      case side3 =>
        intro b hb hbo hmem
        rcases (mem_exitEvents _ _ _).mp hmem with ⟨hf, _, _⟩ |
          ⟨hf, _, _⟩ | ⟨_, _, _, hevq⟩ | ⟨_, _, _, hevq⟩
        · rw [htrig] at hf; exact absurd hf (by simp)
        · rw [htrig] at hf; exact absurd hf (by simp)
        · exact hbo (by injection hevq with _ _ _ h4; exact h4.symm)
        · exact absurd hevq (by simp)
      by_cases hc : rec.entity.hasCollision <;>
        by_cases hr : rec.entity.hasRigidbody <;>
        simp [exitEvents, htrig, hotrig, hc, hr]
    · rw [count_flatMap_eq_of_unique _ _ o _ hremnd homem ?side4]
      case side4 =>
        intro b hb hbo hmem
        rcases (mem_exitEvents _ _ _).mp hmem with ⟨hf, _, _⟩ |
          ⟨hf, _, _⟩ | ⟨_, _, _, hevq⟩ | ⟨_, _, _, hevq⟩
        · rw [htrig] at hf; exact absurd hf (by simp)
        · rw [htrig] at hf; exact absurd hf (by simp)
        · exact absurd hevq (by simp)
        · exact hbo (by injection hevq with _ _ _ h4; exact h4.symm)
      by_cases hc : rec.entity.hasCollision <;>
        by_cases hr : rec.entity.hasRigidbody <;>
        simp [exitEvents, htrig, hotrig, hc, hr]
    · intro ev hev
      rcases List.mem_flatMap.mp hev with ⟨b, _, hbev⟩
      rcases (mem_exitEvents _ _ _).mp hbev with ⟨hf, _, _⟩ |
        ⟨hf, _, _⟩ | ⟨_, _, _, rfl⟩ | ⟨_, _, _, rfl⟩
      · rw [htrig] at hf; exact absurd hf (by simp)
      · rw [htrig] at hf; exact absurd hf (by simp)
      · simp
      · simp
  · intro htrig hotrig ev hev
    rcases List.mem_flatMap.mp hev with ⟨b, hb, hbev⟩
    have hbo : b ≠ o := by
      rintro rfl
      rcases (mem_exitEvents _ _ _).mp hbev with ⟨hf, _, _⟩ |
        ⟨hf, _, _⟩ | ⟨_, hf, _, _⟩ | ⟨_, hf, _, _⟩
      · rw [htrig] at hf; exact absurd hf (by simp)
      · rw [htrig] at hf; exact absurd hf (by simp)
      · rw [hotrig] at hf; exact absurd hf (by simp)
      · rw [hotrig] at hf; exact absurd hf (by simp)
    have heo : rec.entity ≠ o := by
      intro hcon
      rw [hcon, hotrig] at htrig
      exact absurd htrig (by simp)
    rcases (mem_exitEvents _ _ _).mp hbev with ⟨hf, _, _⟩ |
      ⟨hf, _, _⟩ | ⟨_, _, _, rfl⟩ | ⟨_, _, _, rfl⟩
    · rw [htrig] at hf; exact absurd hf (by simp)
    · rw [htrig] at hf; exact absurd hf (by simp)
    · exact ⟨heo, hbo⟩
    · exact ⟨heo, hbo⟩

/-- C1 witness: a concrete trigger-volume record whose other vanished
from the transient map. -/
theorem claim1_witness :
    ((sampleTrigState.collisions.map Prod.fst).Nodup ∧
     alistGet 0 sampleTrigState.collisions = some ⟨entTrig, [entBody]⟩ ∧
     [entBody].Nodup ∧ entBody ∈ [entBody] ∧
     frameHas sampleTrigState 0 entBody = false) ∧
    (∀ rec', alistGet 0 (cleanOldCollisions sampleTrigState).1.collisions =
        some rec' → entBody ∉ rec'.others) :=
  ⟨by decide,
   (claim1_cleanOldCollisions sampleTrigState 0 ⟨entTrig, [entBody]⟩ entBody
     (by decide) (by decide) (by decide) (by decide) (by decide)).2.2.1⟩

/-- C2: the first `storeCollision(e, o)` while `o` is absent from `e`'s
persistent record returns true and inserts `o` exactly once; any further
call while the pair persists returns false and leaves the persistent map
unchanged; every call appends `o` to the transient others-list; and no
`storeCollision` call ever removes a registered pair. -/
theorem claim2_storeCollision (s : ProviderState) (e o : Entity) :
    (o ∉ persistentOthers s e →
      (storeCollision s e o).1 = true ∧
      persistentOthers (storeCollision s e o).2 e =
        persistentOthers s e ++ [o] ∧
      (persistentOthers (storeCollision s e o).2 e).count o = 1) ∧
    (o ∈ persistentOthers s e →
      (storeCollision s e o).1 = false ∧
      (storeCollision s e o).2.collisions = s.collisions) ∧
    (frameOthers (storeCollision s e o).2 e = frameOthers s e ++ [o]) ∧
    (∀ e' o', o ∈ persistentOthers s e →
      o ∈ persistentOthers (storeCollision s e' o').2 e) := by
  refine ⟨fun hno => ⟨?_, ?_, ?_⟩, fun hyes => ⟨?_, ?_⟩, ?_, ?_⟩
  · exact (storeCollision_fst s e o).mpr hno
  · have := persistentOthersG_storeCollision_self s e o
    rw [if_neg hno] at this
    exact this
  · have := persistentOthersG_storeCollision_self s e o
    rw [if_neg hno] at this
    rw [persistentOthers, this, List.count_append]
    rw [List.count_eq_zero.mpr hno]
    simp
  · rw [storeCollision_fst_eq]
    simp [hyes]
  · exact collisions_storeCollision_of_mem s e o hyes
  · exact frameOthersG_storeCollision_self s e o
  · intro e' o' hmem
    by_cases hgg : e.guid = e'.guid
    · have := persistentOthersG_storeCollision_self s e' o'
      rw [persistentOthers, hgg, this]
      have hsame : persistentOthers s e' = persistentOthers s e := by
        rw [persistentOthers, persistentOthers, hgg]
      rw [hsame]
      split
      · exact hmem
      · exact List.mem_append_left _ hmem
    · rw [persistentOthers, persistentOthersG_storeCollision_ne s e' o'
        e.guid hgg]
      exact hmem

/-- C2 witness: a fresh pair on the empty state. -/
theorem claim2_witness :
    entBody ∉ persistentOthers ⟨[], []⟩ entTrig ∧
    ((storeCollision ⟨[], []⟩ entTrig entBody).1 = true ∧
      persistentOthers (storeCollision ⟨[], []⟩ entTrig entBody).2 entTrig =
        persistentOthers ⟨[], []⟩ entTrig ++ [entBody] ∧
      (persistentOthers
        (storeCollision ⟨[], []⟩ entTrig entBody).2 entTrig).count entBody =
          1) :=
  ⟨by decide, (claim2_storeCollision ⟨[], []⟩ entTrig entBody).1 (by decide)⟩

/-- C3: under the trigger-volume/no-response coupling (an entity is a
trigger volume iff its body carries the no-response flag), a pair with
at least one flagged body never receives `collisionstart`,
`collisionend`, or any contact event from a detection pass (manifold
processing plus the subsequent `cleanOldCollisions`): every event fired
for such a pair is a `triggerenter` or a `triggerleave`. -/
theorem claim3_trigger_pair_events (shc : Bool) (manifolds : List Manifold)
    (s : ProviderState) (ev : Event)
    (hev : ev ∈ (checkForCollisions shc manifolds s).2)
    (hc1 : ev.owner.trigger = ev.owner.noResponse)
    (hc2 : ev.other.trigger = ev.other.noResponse)
    (hflag : ev.owner.noResponse = true ∨ ev.other.noResponse = true) :
    ev.name = .triggerenter ∨ ev.name = .triggerleave := by
  have hs := checkForCollisions_safe shc manifolds s ev hev
  cases hn : ev.name
  · obtain ⟨h1, h2⟩ := hs.1 (Or.inl hn)
    rcases hflag with hf | hf
    · rw [h1] at hf; exact absurd hf (by simp)
    · rw [h2] at hf; exact absurd hf (by simp)
  · obtain ⟨h1, h2⟩ := hs.1 (Or.inr hn)
    rcases hflag with hf | hf
    · rw [h1] at hf; exact absurd hf (by simp)
    · rw [h2] at hf; exact absurd hf (by simp)
  · obtain ⟨h1, h2⟩ := hs.2 hn
    rw [hc1] at h1
    rw [hc2] at h2
    rcases hflag with hf | hf
    · rw [h1] at hf; exact absurd hf (by simp)
    · rw [h2] at hf; exact absurd hf (by simp)
  · exact Or.inl rfl
  · exact Or.inr rfl

/-- C3 witness: the `triggerleave` fired when a stale trigger pair
disappears, for entities satisfying the coupling. -/
theorem claim3_witness :
    ((⟨.collision, entTrig, .triggerleave, entBody⟩ : Event) ∈
      (checkForCollisions false [] sampleTrigState).2 ∧
     entTrig.trigger = entTrig.noResponse ∧
     entBody.trigger = entBody.noResponse ∧
     entTrig.noResponse = true) ∧
    ((⟨.collision, entTrig, .triggerleave, entBody⟩ : Event).name =
        .triggerenter ∨
     (⟨.collision, entTrig, .triggerleave, entBody⟩ : Event).name =
        .triggerleave) :=
  ⟨by decide,
   claim3_trigger_pair_events false [] sampleTrigState
     ⟨.collision, entTrig, .triggerleave, entBody⟩
     (by decide) (by decide) (by decide) (Or.inl (by decide))⟩

/-- C4 counterexample: in a manifold whose two bodies are both flagged
no-response, where `e0` carries only a rigid-body component with a
triggerenter listener, the detection pass fires `triggerenter` on
`e0.rigidbody` even though the opposite body is itself flagged
no-response — the claimed opposite-flag gate does not exist on the
rigid-body side. -/
theorem claim4_counterexample :
    entBareNR.noResponse = true ∧
    (⟨.rigidbody, entBodyNR, .triggerenter, entBareNR⟩ : Event) ∈
      (checkForCollisions false [⟨some entBodyNR, some entBareNR, 1⟩]
        ⟨[], []⟩).2 := by
  decide

/-- C4 amended: on the trigger path, `triggerenter` on a collision
component fires iff that side has trigger listeners, its store is fresh
for the directed pair, and the opposite body is not flagged no-response;
`triggerenter` on a rigid-body component fires iff that side has trigger
listeners and the shared `newCollision` flag is set at that check — the
flag holding the most recent collision-side store result, or the result
of the check's own fallback store when still unset — with no
opposite-flag gate on the rigid-body side. -/
theorem claim4_amended (s : ProviderState) (e0 e1 : Entity)
    (hg : e0.guid ≠ e1.guid) :
    (let a := decide (e1 ∈ persistentOthersG s e0.guid)
     let b := decide (e0 ∈ persistentOthersG s e1.guid)
     let E0c := triggerCollisionEvents e0
     let E1c := triggerCollisionEvents e1
     let E0b := triggerBodyEvents e0
     let E1b := triggerBodyEvents e1
     let n2 := if E1c then !b else (E0c && !a)
     let n3 := if E0b then (n2 || (!b && !E1c)) else n2
     ((⟨.collision, e0, .triggerenter, e1⟩ : Event) ∈
        (processTriggerManifold s e0 e1).2 ↔
      E0c = true ∧ e1 ∉ persistentOthersG s e0.guid ∧
        e1.noResponse = false) ∧
     ((⟨.collision, e1, .triggerenter, e0⟩ : Event) ∈
        (processTriggerManifold s e0 e1).2 ↔
      E1c = true ∧ e0 ∉ persistentOthersG s e1.guid ∧
        e0.noResponse = false) ∧
     ((⟨.rigidbody, e0, .triggerenter, e1⟩ : Event) ∈
        (processTriggerManifold s e0 e1).2 ↔
      (E0b && (n2 || (!b && !E1c))) = true) ∧
     ((⟨.rigidbody, e1, .triggerenter, e0⟩ : Event) ∈
        (processTriggerManifold s e0 e1).2 ↔
      (E1b && (n3 || (!a && !E0c))) = true)) := by
  have hne : e0 ≠ e1 := fun h => hg (by rw [h])
  have hne' : e1 ≠ e0 := Ne.symm hne
  rw [processTriggerManifold_events_eq s e0 e1 hg]
  refine ⟨?_, ?_, ?_, ?_⟩ <;>
    simp [List.mem_append, hne, hne', Bool.and_eq_true,
      Bool.not_eq_true', and_assoc]

/-- C4 amended witness: a trigger volume overlapping a plain rigid body
with listeners on both sides. -/
theorem claim4_witness :
    entTrig.guid ≠ entBody.guid ∧
    ((⟨.collision, entTrig, .triggerenter, entBody⟩ : Event) ∈
      (processTriggerManifold ⟨[], []⟩ entTrig entBody).2 ↔
     triggerCollisionEvents entTrig = true ∧
       entBody ∉ persistentOthersG ⟨[], []⟩ entTrig.guid ∧
       entBody.noResponse = false) :=
  ⟨by decide, (claim4_amended ⟨[], []⟩ entTrig entBody (by decide)).1⟩

/-- C5: the bookkeeping invariants — `storeCollision`,
`cleanOldCollisions` and a whole detection pass preserve
duplicate-freeness of every persistent others-list; no record with an
empty others-list survives a `cleanOldCollisions` pass; and a detection
pass is insensitive to whatever transient map was left behind (it is
rebuilt from empty every pass). -/
theorem claim5_invariants (s : ProviderState) (e o : Entity) (shc : Bool)
    (manifolds : List Manifold) (hnd : othersNodup s) :
    othersNodup (storeCollision s e o).2 ∧
    othersNodup (cleanOldCollisions s).1 ∧
    (∀ x ∈ (cleanOldCollisions s).1.collisions, x.2.others ≠ []) ∧
    othersNodup (checkForCollisions shc manifolds s).1 ∧
    (∀ fc, checkForCollisions shc manifolds { s with frameCollisions := fc } =
      checkForCollisions shc manifolds s) := by
  refine ⟨othersNodup_storeCollision s e o hnd,
    othersNodup_cleanOldCollisions s hnd,
    cleanOldCollisions_no_empty s, ?_, fun fc => rfl⟩
  unfold checkForCollisions
  apply othersNodup_cleanOldCollisions
  apply othersNodup_storeReach _ _
    (storeReach_foldl_processManifold shc manifolds
      ({ s with frameCollisions := [] }, []))
  exact hnd

/-- C5 witness: invariants on a concrete state with one record. -/
theorem claim5_witness :
    othersNodup sampleTrigState ∧
    othersNodup (storeCollision sampleTrigState entTrig entBody).2 :=
  ⟨by unfold othersNodup; decide,
   (claim5_invariants sampleTrigState entTrig entBody false []
     (by unfold othersNodup; decide)).1⟩

/-- C6: with `setInternalTickCallback` absent, `init` emits the one-time
compatibility warning, but `afterStep` does not successfully run the
detection pass: its fallback branch reads the unbound identifier `dt`
and throws a `ReferenceError` before `_checkForCollisions` is entered.
With the capability present, `afterStep` runs no detection pass and
`init` warns nothing. -/
theorem claim6_afterStep (shc : Bool) (manifolds : List Manifold)
    (s : ProviderState) :
    afterStep ⟨false⟩ shc manifolds s = .error ⟨"dt"⟩ ∧
    initWarnings ⟨false⟩ = [ammoCompatWarning] ∧
    afterStep ⟨true⟩ shc manifolds s = .ok (s, []) ∧
    initWarnings ⟨true⟩ = [] :=
  ⟨rfl, rfl, rfl, rfl⟩

/-- C7 counterexample: the closest-hit query reports a hit whose
collision object casts to a rigid body but whose body has no owning
entity; `raycastFirst` (no filters) does not treat it as a miss — it
returns a result whose entity is the none-value instead of returning
null. -/
theorem claim7_counterexample :
    (raycastFirst sampleOrphanBackend {}).1 ≠ none ∧
    (raycastFirst sampleOrphanBackend {}).1.map RaycastResult.entity =
      some none := by
  decide

/-- C7 amended: on the no-filter path, `raycastFirst` returns null iff
the closest-hit query reports no hit or the hit's collision object fails
to cast to a rigid body; whenever the cast succeeds a result is built
from the hit — carrying the body's owning entity if there is one and the
none-value otherwise. -/
theorem claim7_amended (B : Backend) (opts : RayOptions)
    (ht : opts.filterTags = none) (hcb : opts.filterCallback = none) :
    ((raycastFirst B opts).1 = none ↔
      B.closest = none ∨ ∃ h, B.closest = some h ∧ h.bodyCast = false) ∧
    (∀ h, B.closest = some h → h.bodyCast = true →
      (raycastFirst B opts).1 = some (mkRaycastResult h)) := by
  constructor
  · cases hc : B.closest with
    | none => simp [raycastFirst, ht, hcb, hc]
    | some hh =>
      by_cases hb : hh.bodyCast <;>
        simp [raycastFirst, ht, hcb, hc, hb]
  · intro h hc hb
    simp [raycastFirst, ht, hcb, hc, hb]

/-- C7 amended witness: the orphan-body hit yields a result with a
none entity rather than a miss. -/
theorem claim7_witness :
    sampleOrphanBackend.closest =
      some ⟨true, none, ⟨0, 0, 0⟩, ⟨0, 1, 0⟩, (2 : Rat) / 5⟩ ∧
    (raycastFirst sampleOrphanBackend {}).1 =
      some (mkRaycastResult
        ⟨true, none, ⟨0, 0, 0⟩, ⟨0, 1, 0⟩, (2 : Rat) / 5⟩) :=
  ⟨rfl, (claim7_amended sampleOrphanBackend {} rfl rfl).2
    ⟨true, none, ⟨0, 0, 0⟩, ⟨0, 1, 0⟩, (2 : Rat) / 5⟩ rfl rfl⟩

/-- C8: with `filterTags` or `filterCallback` present, `raycastFirst`
returns the first element of `raycastAll` run with sorting forced on (or
null when that sequence is empty), and the closest-hit backend query is
never consulted: the result is insensitive to the closest-hit outcome. -/
theorem claim8_raycastFirst_filters (B : Backend) (opts : RayOptions)
    (hf : opts.filterTags.isSome = true ∨ opts.filterCallback.isSome = true) :
    ((raycastFirst B opts).1 =
      (raycastAll B { opts with sort := true }).head?) ∧
    (∀ c, raycastFirst { B with closest := c } opts =
      raycastFirst B opts) := by
  have hb : (opts.filterTags.isSome || opts.filterCallback.isSome) = true := by
    rcases hf with h | h <;> simp [h]
  constructor
  · simp [raycastFirst, hb]
  · intro c
    simp [raycastFirst, hb, raycastAll]

/-- C8 witness: a tag filter forces the all-hits path. -/
theorem claim8_witness :
    ((Option.some [5] : Option (List Nat)).isSome = true ∨
      (none : Option (Entity → Bool)).isSome = true) ∧
    (raycastFirst sampleAllBackend { filterTags := some [5] }).1 =
      (raycastAll sampleAllBackend
        { ({ filterTags := some [5] } : RayOptions) with sort := true }).head? :=
  ⟨Or.inl rfl,
   (claim8_raycastFirst_filters sampleAllBackend { filterTags := some [5] }
     (Or.inl rfl)).1⟩

/-- C9: `raycastAll` always returns a list holding exactly one result
per backend hit whose collision object casts to a rigid body with an
owning entity passing the tag/callback filters (in hit order when
unsorted, as a permutation in general), and with `sort` the list is
ordered by non-decreasing hitFraction. -/
theorem claim9_raycastAll (B : Backend) (opts : RayOptions) :
    (opts.sort = false →
      raycastAll B opts =
        (B.allHits.filter (qualifiesHit opts)).map mkRaycastResult) ∧
    (raycastAll B opts).Perm
      ((B.allHits.filter (qualifiesHit opts)).map mkRaycastResult) ∧
    (opts.sort = true →
      (raycastAll B opts).Pairwise
        (fun a b => a.hitFraction ≤ b.hitFraction)) := by
  by_cases he : B.allHits.isEmpty
  · have hnil : B.allHits = [] := List.isEmpty_iff.mp he
    refine ⟨fun _ => ?_, ?_, fun _ => ?_⟩ <;> simp [raycastAll, he, hnil]
  · have h1 : raycastAll B opts =
        (if opts.sort then sortByFraction (collectHits opts B.allHits)
         else collectHits opts B.allHits) := by
      simp [raycastAll, he]
    refine ⟨fun hs => ?_, ?_, fun hs => ?_⟩
    · rw [h1, if_neg (by simp [hs]), collectHits_eq_filterMap]
    · rw [h1]
      by_cases hs : opts.sort
      · rw [if_pos hs, ← collectHits_eq_filterMap]
        exact sortByFraction_perm _
      · rw [if_neg hs, collectHits_eq_filterMap]
    · rw [h1, if_pos hs]
      exact sortByFraction_sorted _

/-- C9 witness: the sample backend's out-of-order hits come back sorted
by hitFraction. -/
theorem claim9_witness :
    ((true : Bool) = true) ∧
    (raycastAll sampleAllBackend { sort := true }).Pairwise
      (fun a b => a.hitFraction ≤ b.hitFraction) :=
  ⟨rfl, (claim9_raycastAll sampleAllBackend { sort := true }).2.2 rfl⟩

/-- C10 (implicit): with `filterTags` or `filterCallback` present,
`raycastFirst` mutates the caller's options object — its `sort` field is
set to true before delegating — and the mutation persists after the call
returns (the final options object is the input with `sort := true`). -/
theorem claim10_options_mutation (B : Backend) (opts : RayOptions)
    (hf : opts.filterTags.isSome = true ∨ opts.filterCallback.isSome = true) :
    (raycastFirst B opts).2 = { opts with sort := true } ∧
    ((raycastFirst B opts).2).sort = true := by
  have hb : (opts.filterTags.isSome || opts.filterCallback.isSome) = true := by
    rcases hf with h | h <;> simp [h]
  constructor
  · simp [raycastFirst, hb]
  · simp [raycastFirst, hb]

/-- C10 witness: a caller-supplied options object with `sort` unset
comes back with `sort` set. -/
theorem claim10_witness :
    ((Option.some [5] : Option (List Nat)).isSome = true ∨
      (none : Option (Entity → Bool)).isSome = true) ∧
    (raycastFirst sampleAllBackend { filterTags := some [5] }).2 =
      { ({ filterTags := some [5] } : RayOptions) with sort := true } :=
  ⟨Or.inl rfl,
   (claim10_options_mutation sampleAllBackend { filterTags := some [5] }
     (Or.inl rfl)).1⟩

